import Mathlib

/-!
Verification development for the claude-swarm orchestrator.

The Python source (src/claude_swarm/swarm.py and src/claude_swarm/patterns.py)
is shallow-embedded below.  Python/JSON values are modelled by the inductive
type `JVal`; Python dicts (which preserve insertion order) are association
lists; the external agent process is modelled by an environment parameter
returning a `ProcOutcome` (exit code, stdout, stderr); the `json.loads`
library call is modelled by an environment parameter of type
`String → Option JVal` (`none` models a JSONDecodeError); the completion
order of concurrently gathered invocations is modelled by a permutation
parameter.  Timestamps (`datetime.now().isoformat()`) are passed in as
string parameters.
-/

/-- JSON-like Python values (dicts keep insertion order, as Python dicts do). -/
inductive JVal where
  | null : JVal
  | bool : Bool → JVal
  | num : Int → JVal
  | str : String → JVal
  | list : List JVal → JVal
  | dict : List (String × JVal) → JVal
deriving Repr

mutual

/-- Boolean equality on `JVal` (used to build a `DecidableEq` instance,
since automatic derivation is unavailable for this nested inductive). -/
def JVal.beq : JVal → JVal → Bool
  | JVal.null, JVal.null => true
  | JVal.bool a, JVal.bool b => a == b
  | JVal.num a, JVal.num b => a == b
  | JVal.str a, JVal.str b => a == b
  | JVal.list a, JVal.list b => beqJList a b
  | JVal.dict a, JVal.dict b => beqJDict a b
  | _, _ => false

/-- Pointwise `JVal.beq` on lists of values. -/
def beqJList : List JVal → List JVal → Bool
  | [], [] => true
  | x :: xs, y :: ys => JVal.beq x y && beqJList xs ys
  | _, _ => false

/-- Pointwise `JVal.beq` on association lists. -/
def beqJDict : List (String × JVal) → List (String × JVal) → Bool
  | [], [] => true
  | (k, v) :: xs, (k2, v2) :: ys => k == k2 && JVal.beq v v2 && beqJDict xs ys
  | _, _ => false

end

mutual

theorem JVal.eq_of_beq : ∀ (a b : JVal), JVal.beq a b = true → a = b
  | JVal.null, JVal.null, _ => rfl
  | JVal.bool a, JVal.bool b, h => by
    simp only [JVal.beq, beq_iff_eq] at h
    exact congrArg JVal.bool h
  | JVal.num a, JVal.num b, h => by
    simp only [JVal.beq, beq_iff_eq] at h
    exact congrArg JVal.num h
  | JVal.str a, JVal.str b, h => by
    simp only [JVal.beq, beq_iff_eq] at h
    exact congrArg JVal.str h
  | JVal.list a, JVal.list b, h => congrArg JVal.list (eqJList_of_beq a b h)
  | JVal.dict a, JVal.dict b, h => congrArg JVal.dict (eqJDict_of_beq a b h)

theorem eqJList_of_beq : ∀ (xs ys : List JVal), beqJList xs ys = true → xs = ys
  | [], [], _ => rfl
  | x :: xs, y :: ys, h => by
    simp only [beqJList, Bool.and_eq_true] at h
    exact congrArg₂ List.cons (JVal.eq_of_beq x y h.1) (eqJList_of_beq xs ys h.2)

theorem eqJDict_of_beq : ∀ (xs ys : List (String × JVal)), beqJDict xs ys = true → xs = ys
  | [], [], _ => rfl
  | (k, v) :: xs, (k2, v2) :: ys, h => by
    simp only [beqJDict, Bool.and_eq_true, beq_iff_eq] at h
    have h1 : (k, v) = (k2, v2) := by
      rw [h.1.1]
      exact congrArg (Prod.mk k2) (JVal.eq_of_beq v v2 h.1.2)
    exact congrArg₂ List.cons h1 (eqJDict_of_beq xs ys h.2)

end

mutual

theorem JVal.beq_refl : ∀ (a : JVal), JVal.beq a a = true
  | JVal.null => rfl
  | JVal.bool a => by simp [JVal.beq]
  | JVal.num a => by simp [JVal.beq]
  | JVal.str a => by simp [JVal.beq]
  | JVal.list a => beqJList_refl a
  | JVal.dict a => beqJDict_refl a

theorem beqJList_refl : ∀ (xs : List JVal), beqJList xs xs = true
  | [] => rfl
  | x :: xs => by
    simp only [beqJList, Bool.and_eq_true]
    exact ⟨JVal.beq_refl x, beqJList_refl xs⟩

theorem beqJDict_refl : ∀ (xs : List (String × JVal)), beqJDict xs xs = true
  | [] => rfl
  | (k, v) :: xs => by
    simp only [beqJDict, Bool.and_eq_true, beq_iff_eq]
    exact ⟨⟨trivial, JVal.beq_refl v⟩, beqJDict_refl xs⟩

end

instance : DecidableEq JVal := fun a b =>
  decidable_of_iff (JVal.beq a b = true) ⟨JVal.eq_of_beq a b, fun h => h ▸ JVal.beq_refl a⟩

/-- Python dict lookup `d.get(k)` on an insertion-ordered association list. -/
def dictGet {α : Type} (k : String) : List (String × α) → Option α
  | [] => none
  | (k', v) :: rest => if k' = k then some v else dictGet k rest

/-- Python dict assignment `d[k] = v`: updates the existing binding in place
(keeping its position) or appends a new binding at the end. -/
def dictSet {α : Type} (k : String) (v : α) : List (String × α) → List (String × α)
  | [] => [(k, v)]
  | (k', v') :: rest => if k' = k then (k, v) :: rest else (k', v') :: dictSet k v rest

/-- Python slice `xs[-n:]`: the last `n` elements (the whole list when it is
shorter than `n`). -/
def lastN {α : Type} (n : Nat) (xs : List α) : List α := xs.drop (xs.length - n)

mutual

/-- Serialization of a `JVal`, modelling `json.dumps` (the exact whitespace of
the Python `indent=2` rendering is not reproduced; no claim depends on it). -/
def JVal.dumps : JVal → String
  | JVal.null => "null"
  | JVal.bool b => if b then "true" else "false"
  | JVal.num n => toString n
  | JVal.str s => "\"" ++ s ++ "\""
  | JVal.list xs => "[" ++ dumpsList xs ++ "]"
  | JVal.dict kvs => "\x7b" ++ dumpsDict kvs ++ "\x7d"

/-- Comma-separated serialization of a list of values. -/
def dumpsList : List JVal → String
  | [] => ""
  | [x] => JVal.dumps x
  | x :: rest => JVal.dumps x ++ ", " ++ dumpsList rest

/-- Comma-separated serialization of the bindings of an object. -/
def dumpsDict : List (String × JVal) → String
  | [] => ""
  | [(k, v)] => "\"" ++ k ++ "\": " ++ JVal.dumps v
  | (k, v) :: rest => "\"" ++ k ++ "\": " ++ JVal.dumps v ++ ", " ++ dumpsDict rest

end

/-- Python `str.strip()`: remove leading and trailing whitespace.  Implemented
over the character list so that it reduces by kernel computation (Lean's own
`String.trim` is defined by well-founded recursion and does not). -/
def pyStrip (s : String) : String :=
  String.mk (((s.data.dropWhile Char.isWhitespace).reverse.dropWhile Char.isWhitespace).reverse)

/-- Outcome of one spawned external agent process: its exit code and captured
stdout/stderr (swarm.py `_invoke_claude`, the `proc.communicate()` data). -/
structure ProcOutcome where
  returncode : Int
  stdout : String
  stderr : String
deriving Repr

/-- The result dict produced by `Swarm._invoke_claude`: key `success` is always
present; `result`, `error` and `returncode` are present (`some`) exactly when
the corresponding Python dict key is. -/
structure InvokeResult where
  success : Bool
  result : Option JVal := none
  error : Option String := none
  returncode : Option Int := none
deriving Repr, DecidableEq

/-- swarm.py `Swarm._invoke_claude` (lines 116-149), after the process has
completed: non-zero exit yields a failure dict with the trimmed stderr and the
exit code; zero exit yields a success dict carrying the parsed stdout, or the
trimmed raw stdout when `json.loads` fails (`loads` returning `none` models
`json.JSONDecodeError`). -/
def invoke_claude (loads : String → Option JVal) (out : ProcOutcome) : InvokeResult :=
  if out.returncode ≠ 0 then
    { success := false, error := some (pyStrip out.stderr), returncode := some out.returncode }
  else
    match loads out.stdout with
    | some v => { success := true, result := some v }
    | none => { success := true, result := some (JVal.str (pyStrip out.stdout)) }

/-- swarm.py `Agent` dataclass (lines 13-34).  `memory` is the list of
interaction-record dicts; `allowed_tools` is `none` for Python `None`. -/
structure Agent where
  name : String
  role : String
  system_prompt : String := ""
  memory : List JVal := []
  allowed_tools : Option (List String) := none
deriving Repr, DecidableEq

/-- swarm.py `Swarm._build_prompt` (lines 151-173): assemble identity line,
system prompt, shared-context block, recent-memory block and task block, then
join with blank lines.  Python truthiness of a string/dict/list is modelled as
being non-empty. -/
def build_prompt (shared_context : List (String × JVal)) (agent : Agent) (task : String) : String :=
  let parts : List String := []
  let parts := if agent.role ≠ "" then
    parts ++ ["You are " ++ agent.name ++ ", a " ++ agent.role ++ "."] else parts
  let parts := if agent.system_prompt ≠ "" then parts ++ [agent.system_prompt] else parts
  let parts := if shared_context ≠ [] then
    parts ++ ["\n## Shared Context\n" ++ JVal.dumps (JVal.dict shared_context)] else parts
  let parts := if agent.memory ≠ [] then
    parts ++ ["\n## Your Recent Memory\n" ++ JVal.dumps (JVal.list (lastN 5 agent.memory))] else parts
  let parts := parts ++ ["\n## Task\n" ++ task]
  String.intercalate "\n\n" parts

/-- C5: for every external-process outcome: non-zero exit gives a failure dict
with the trimmed stderr text and the exit code; zero exit with stdout that
parses gives a success dict with the parsed value; zero exit with stdout that
does not parse gives a success dict with the raw (trimmed) text, not a
failure. -/
theorem invoke_claude_cases (loads : String → Option JVal) (out : ProcOutcome) :
    (out.returncode ≠ 0 → invoke_claude loads out =
      { success := false, result := none, error := some (pyStrip out.stderr),
        returncode := some out.returncode }) ∧
    (out.returncode = 0 → ∀ v, loads out.stdout = some v → invoke_claude loads out =
      { success := true, result := some v, error := none, returncode := none }) ∧
    (out.returncode = 0 → loads out.stdout = none → invoke_claude loads out =
      { success := true, result := some (JVal.str (pyStrip out.stdout)), error := none,
        returncode := none }) := by
  refine ⟨fun h => ?_, fun h v hv => ?_, fun h hn => ?_⟩
  · simp [invoke_claude, h]
  · simp [invoke_claude, h, hv]
  · simp [invoke_claude, h, hn]

/-- Witness for C5: each of the three cases evaluated at a concrete outcome. -/
theorem invoke_claude_cases_witness :
    invoke_claude (fun _ => none) { returncode := 2, stdout := "", stderr := " boom " } =
      { success := false, result := none, error := some "boom", returncode := some 2 } ∧
    invoke_claude (fun _ => some (JVal.num 7)) { returncode := 0, stdout := "7", stderr := "" } =
      { success := true, result := some (JVal.num 7), error := none, returncode := none } ∧
    invoke_claude (fun _ => none) { returncode := 0, stdout := " hi ", stderr := "" } =
      { success := true, result := some (JVal.str "hi"), error := none, returncode := none } := by
  refine ⟨?_, ?_, ?_⟩
  · exact ((invoke_claude_cases (fun _ => none)
      { returncode := 2, stdout := "", stderr := " boom " }).1 (by decide)).trans (by decide)
  · exact (invoke_claude_cases (fun _ => some (JVal.num 7))
      { returncode := 0, stdout := "7", stderr := "" }).2.1 rfl (JVal.num 7) rfl
  · exact ((invoke_claude_cases (fun _ => none)
      { returncode := 0, stdout := " hi ", stderr := "" }).2.2 rfl rfl).trans (by decide)

/-- C1: for every shared context, agent and task, the prompt is the blank-line
join of: identity line (if the role is set), system prompt (if set), labeled
Shared Context block (if non-empty), labeled memory block (if non-empty), and
the labeled Task block, in this fixed order, so context and memory always
precede the task; the memory block serializes `lastN 5` of the memory, which
is a suffix of the memory (the most recent entries in append order) of length
`min 5 (memory length)` -- exactly the 5 most recent entries once more than 5
exist. -/
theorem build_prompt_order (sc : List (String × JVal)) (a : Agent) (task : String) :
    build_prompt sc a task = String.intercalate "\n\n" (
      (if a.role ≠ "" then ["You are " ++ a.name ++ ", a " ++ a.role ++ "."] else []) ++
      (if a.system_prompt ≠ "" then [a.system_prompt] else []) ++
      (if sc ≠ [] then ["\n## Shared Context\n" ++ JVal.dumps (JVal.dict sc)] else []) ++
      (if a.memory ≠ [] then
        ["\n## Your Recent Memory\n" ++ JVal.dumps (JVal.list (lastN 5 a.memory))] else []) ++
      ["\n## Task\n" ++ task]) ∧
    lastN 5 a.memory <:+ a.memory ∧
    (lastN 5 a.memory).length = min 5 a.memory.length := by
  refine ⟨?_, ?_, ?_⟩
  · by_cases h1 : a.role = "" <;> by_cases h2 : a.system_prompt = "" <;>
      by_cases h3 : sc = [] <;> by_cases h4 : a.memory = [] <;>
      simp [build_prompt, h1, h2, h3, h4]
  · exact List.drop_suffix _ _
  · simp only [lastN, List.length_drop]
    omega

/-- The interaction record appended to the agent memory by `Swarm.invoke`
(swarm.py lines 185-190): on success the `result` payload, otherwise the
`error` text, under the `result` key (`dict.get` yields `None`, i.e.
`JVal.null`, when the key is absent). -/
def memoryRecord (ts task : String) (result : InvokeResult) : JVal :=
  JVal.dict [("timestamp", JVal.str ts), ("task", JVal.str task),
    ("result", if result.success then (result.result).getD JVal.null
               else ((result.error).map JVal.str).getD JVal.null),
    ("success", JVal.bool result.success)]

/-- The result dict of `_invoke_claude` re-expressed as a `JVal` (as stored in
the history record): keys appear exactly when present, in construction
order. -/
def InvokeResult.to_jval (r : InvokeResult) : JVal :=
  JVal.dict (
    [("success", JVal.bool r.success)] ++
    (match r.result with | some v => [("result", v)] | none => []) ++
    (match r.error with | some e => [("error", JVal.str e)] | none => []) ++
    (match r.returncode with | some c => [("returncode", JVal.num c)] | none => []))

/-- The record appended to the global history by `Swarm.invoke` (swarm.py
lines 193-198): timestamp, agent name (or null for `run_prompt`), task and the
raw result dict. -/
def historyRecord (ts : String) (agent : Option String) (task : String)
    (result : InvokeResult) : JVal :=
  JVal.dict [("timestamp", JVal.str ts),
    ("agent", match agent with | some n => JVal.str n | none => JVal.null),
    ("task", JVal.str task), ("result", result.to_jval)]

/-- swarm.py `SwarmState` (lines 37-43): insertion-ordered agent registry,
shared context dict, and the history list of record dicts. -/
structure SwarmState where
  agents : List (String × Agent) := []
  shared_context : List (String × JVal) := []
  history : List JVal := []
deriving Repr, DecidableEq

/-- The dict returned by `Swarm.invoke`: either the not-found failure dict
(which has no `agent` key) or `{"agent": agent_name, **result}`. -/
structure InvokeRet where
  agent : Option String := none
  success : Bool
  result : Option JVal := none
  error : Option String := none
  returncode : Option Int := none
deriving Repr, DecidableEq

/-- swarm.py `Swarm.add_agent` (lines 84-99): construct a fresh `Agent` (its
`memory` starts at the dataclass default `[]`) and store it under `name`,
overwriting any existing registration. -/
def Swarm.add_agent (st : SwarmState) (name role : String) (system_prompt : String)
    (allowed_tools : Option (List String)) : SwarmState × Agent :=
  let agent : Agent := { name := name, role := role, system_prompt := system_prompt,
                         allowed_tools := allowed_tools }
  ({ st with agents := dictSet name agent st.agents }, agent)

/-- swarm.py `Swarm.invoke` (lines 175-200).  `env` maps the built prompt and
the allow-list of the chosen agent to the external process outcome; `ts_mem`
and `ts_hist` are the two `datetime.now().isoformat()` strings.  An
unregistered name returns the not-found failure dict without touching the
state; otherwise the prompt is built, the process invoked, one record appended
to the agent memory and one to the history, and `{"agent": name, **result}`
returned. -/
def Swarm.invoke (loads : String → Option JVal)
    (env : String → Option (List String) → ProcOutcome) (ts_mem ts_hist : String)
    (st : SwarmState) (agent_name task : String) : SwarmState × InvokeRet :=
  match dictGet agent_name st.agents with
  | none => (st, { success := false,
                   error := some ("Agent \x27" ++ agent_name ++ "\x27 not found") })
  | some agent =>
    let prompt := build_prompt st.shared_context agent task
    let result := invoke_claude loads (env prompt agent.allowed_tools)
    let agent2 := { agent with memory := agent.memory ++ [memoryRecord ts_mem task result] }
    ({ st with agents := dictSet agent_name agent2 st.agents,
               history := st.history ++ [historyRecord ts_hist (some agent_name) task result] },
     { agent := some agent_name, success := result.success, result := result.result,
       error := result.error, returncode := result.returncode })

/-- swarm.py `Swarm.dispatch` (lines 202-205), sequentialized: the invoke
coroutines are created in assignment-iteration order and `asyncio.gather`
returns their results in that same order; `env` and `ts` supply each
invocation's process outcome and timestamps by position. -/
def dispatchGo (loads : String → Option JVal)
    (env : Nat → String → Option (List String) → ProcOutcome) (ts : Nat → String × String)
    (i : Nat) (st : SwarmState) : List (String × String) → SwarmState × List InvokeRet
  | [] => (st, [])
  | (name, task) :: rest =>
    let step := Swarm.invoke loads (env i) (ts i).1 (ts i).2 st name task
    let next := dispatchGo loads env ts (i + 1) step.1 rest
    (next.1, step.2 :: next.2)

/-- swarm.py `Swarm.dispatch`: run every (agent, task) assignment and collect
the per-assignment results in assignment order. -/
def Swarm.dispatch (loads : String → Option JVal)
    (env : Nat → String → Option (List String) → ProcOutcome) (ts : Nat → String × String)
    (st : SwarmState) (assignments : List (String × String)) : SwarmState × List InvokeRet :=
  dispatchGo loads env ts 0 st assignments

theorem dictGet_dictSet {α : Type} (k k2 : String) (v : α) (l : List (String × α)) :
    dictGet k2 (dictSet k v l) = if k = k2 then some v else dictGet k2 l := by
  induction l with
  | nil => simp [dictGet, dictSet]
  | cons p rest ih =>
    obtain ⟨k3, v3⟩ := p
    by_cases h : k3 = k
    · subst h
      by_cases h2 : k3 = k2 <;> simp [dictSet, dictGet, h2]
    · by_cases h2 : k3 = k2
      · subst h2
        have hk : ¬ k = k3 := fun he => h he.symm
        simp [dictSet, dictGet, h, hk]
      · simp [dictSet, dictGet, h, h2, ih]

theorem invoke_preserves_registered (loads : String → Option JVal)
    (env : String → Option (List String) → ProcOutcome) (t1 t2 : String) (st : SwarmState)
    (nm task n : String) (h : dictGet n st.agents ≠ none) :
    dictGet n ((Swarm.invoke loads env t1 t2 st nm task).1).agents ≠ none := by
  cases hm : dictGet nm st.agents with
  | none => simpa [Swarm.invoke, hm] using h
  | some a =>
    simp only [Swarm.invoke, hm, dictGet_dictSet]
    split
    · simp
    · exact h

theorem invoke_registered_tag (loads : String → Option JVal)
    (env : String → Option (List String) → ProcOutcome) (t1 t2 : String) (st : SwarmState)
    (nm task : String) (a : Agent) (h : dictGet nm st.agents = some a) :
    ((Swarm.invoke loads env t1 t2 st nm task).2).agent = some nm := by
  simp [Swarm.invoke, h]

/-- C2: invoking an unregistered name returns the not-found failure dict (a
value, not an exception); invoking a registered agent runs the process invoker
on the full built prompt with that agent's allow-list, appends exactly one
interaction record to that agent's memory, appends exactly one record to the
global history, and returns the agent name together with the invocation's
success flag, result and error. -/
theorem invoke_spec (loads : String → Option JVal)
    (env : String → Option (List String) → ProcOutcome) (ts_mem ts_hist : String)
    (st : SwarmState) (agent_name task : String) :
    (dictGet agent_name st.agents = none →
      Swarm.invoke loads env ts_mem ts_hist st agent_name task =
        (st, { agent := none, success := false, result := none,
               error := some ("Agent \x27" ++ agent_name ++ "\x27 not found"),
               returncode := none })) ∧
    (∀ a, dictGet agent_name st.agents = some a →
      (let r := invoke_claude loads (env (build_prompt st.shared_context a task) a.allowed_tools)
       let post := Swarm.invoke loads env ts_mem ts_hist st agent_name task
       dictGet agent_name post.1.agents =
         some { a with memory := a.memory ++ [memoryRecord ts_mem task r] } ∧
       post.1.history = st.history ++ [historyRecord ts_hist (some agent_name) task r] ∧
       post.2 = { agent := some agent_name, success := r.success, result := r.result,
                  error := r.error, returncode := r.returncode })) := by
  constructor
  · intro h
    simp [Swarm.invoke, h]
  · intro a h
    refine ⟨?_, ?_, ?_⟩
    · simp [Swarm.invoke, h, dictGet_dictSet]
    · simp [Swarm.invoke, h]
    · simp [Swarm.invoke, h]

/-- C9: invoking an unregistered name returns the not-found failure result and
leaves the whole orchestrator state (registry, memories, shared context,
history) unchanged. -/
theorem invoke_not_found_leaves_state (loads : String → Option JVal)
    (env : String → Option (List String) → ProcOutcome) (ts_mem ts_hist : String)
    (st : SwarmState) (agent_name task : String)
    (h : dictGet agent_name st.agents = none) :
    Swarm.invoke loads env ts_mem ts_hist st agent_name task =
      (st, { agent := none, success := false, result := none,
             error := some ("Agent \x27" ++ agent_name ++ "\x27 not found"),
             returncode := none }) := by
  simp [Swarm.invoke, h]

/-- C10: registering a name that is already present replaces the stored agent
with a freshly constructed one whose memory is empty, discarding the previous
agent's accumulated memory. -/
theorem add_agent_replaces (st : SwarmState) (name role sp : String)
    (tools : Option (List String)) (old : Agent)
    (_h : dictGet name st.agents = some old) :
    ((Swarm.add_agent st name role sp tools).2).memory = [] ∧
    dictGet name ((Swarm.add_agent st name role sp tools).1).agents =
      some { name := name, role := role, system_prompt := sp, memory := [],
             allowed_tools := tools } := by
  constructor
  · rfl
  · simp [Swarm.add_agent, dictGet_dictSet]

theorem dispatchGo_tags (loads : String → Option JVal)
    (env : Nat → String → Option (List String) → ProcOutcome) (ts : Nat → String × String) :
    ∀ (assignments : List (String × String)) (i : Nat) (st : SwarmState),
    (∀ p ∈ assignments, dictGet p.1 st.agents ≠ none) →
    ((dispatchGo loads env ts i st assignments).2).map InvokeRet.agent =
      assignments.map (fun p => some p.1) := by
  intro assignments
  induction assignments with
  | nil => intro i st _; rfl
  | cons p rest ih =>
    intro i st hreg
    obtain ⟨name, task⟩ := p
    obtain ⟨a, ha⟩ : ∃ a, dictGet name st.agents = some a := by
      have := hreg (name, task) (List.mem_cons_self _ _)
      cases hm : dictGet name st.agents with
      | none => exact absurd hm this
      | some a => exact ⟨a, rfl⟩
    have htag := invoke_registered_tag loads (env i) (ts i).1 (ts i).2 st name task a ha
    have hrest := ih (i + 1) (Swarm.invoke loads (env i) (ts i).1 (ts i).2 st name task).1
      (fun q hq => invoke_preserves_registered loads (env i) (ts i).1 (ts i).2 st name task q.1
        (hreg q (List.mem_cons_of_mem _ hq)))
    simp only [dispatchGo, List.map_cons, hrest, htag]

/-- C8: when every assigned name is registered, dispatch returns one result per
assignment, in assignment order, each tagged (in its `agent` field) with the
agent name it came from. -/
theorem dispatch_tags (loads : String → Option JVal)
    (env : Nat → String → Option (List String) → ProcOutcome) (ts : Nat → String × String)
    (st : SwarmState) (assignments : List (String × String))
    (hreg : ∀ p ∈ assignments, dictGet p.1 st.agents ≠ none) :
    ((Swarm.dispatch loads env ts st assignments).2).map InvokeRet.agent =
      assignments.map (fun p => some p.1) ∧
    ((Swarm.dispatch loads env ts st assignments).2).length = assignments.length := by
  have h := dispatchGo_tags loads env ts assignments 0 st hreg
  refine ⟨h, ?_⟩
  have := congrArg List.length h
  simpa using this

/-- Concrete fixture agent for witnesses. -/
def wAgent : Agent := { name := "security", role := "security engineer" }

/-- Concrete fixture state for witnesses. -/
def wState : SwarmState := { agents := [("security", wAgent)] }

/-- Fixture `json.loads` that never parses. -/
def wLoads : String → Option JVal := fun _ => none

/-- Fixture process environment: every invocation exits 0 printing `done`. -/
def wEnv : String → Option (List String) → ProcOutcome :=
  fun _ _ => { returncode := 0, stdout := "done", stderr := "" }

/-- Witness for C2: a registered agent at concrete inputs, memory and history
grown by exactly the one expected record and the tagged return value. -/
theorem invoke_spec_witness :
    dictGet "security"
      ((Swarm.invoke wLoads wEnv "t1" "t2" wState "security" "scan auth.py").1).agents =
      some { name := "security", role := "security engineer", system_prompt := "",
             memory := [JVal.dict [("timestamp", JVal.str "t1"),
               ("task", JVal.str "scan auth.py"), ("result", JVal.str "done"),
               ("success", JVal.bool true)]],
             allowed_tools := none } ∧
    ((Swarm.invoke wLoads wEnv "t1" "t2" wState "security" "scan auth.py").1).history =
      [JVal.dict [("timestamp", JVal.str "t2"), ("agent", JVal.str "security"),
        ("task", JVal.str "scan auth.py"),
        ("result", JVal.dict [("success", JVal.bool true), ("result", JVal.str "done")])]] ∧
    (Swarm.invoke wLoads wEnv "t1" "t2" wState "security" "scan auth.py").2 =
      { agent := some "security", success := true, result := some (JVal.str "done"),
        error := none, returncode := none } := by
  have h := (invoke_spec wLoads wEnv "t1" "t2" wState "security" "scan auth.py").2
    wAgent (by decide)
  exact ⟨h.1.trans (by decide), h.2.1.trans (by decide), h.2.2.trans (by decide)⟩

/-- Witness for C9: invoking an unregistered name at concrete inputs returns
the not-found failure and the untouched state. -/
theorem invoke_not_found_leaves_state_witness :
    Swarm.invoke wLoads wEnv "t1" "t2" wState "ghost" "task" =
      (wState, { agent := none, success := false, result := none,
                 error := some "Agent \x27ghost\x27 not found", returncode := none }) := by
  exact (invoke_not_found_leaves_state wLoads wEnv "t1" "t2" wState "ghost" "task"
    (by decide)).trans (by decide)

/-- Witness for C10: re-adding a name whose stored agent has non-empty memory
yields a stored agent with empty memory. -/
theorem add_agent_replaces_witness :
    ((Swarm.add_agent
        { agents := [("a", { name := "a", role := "r", memory := [JVal.str "m"] })] }
        "a" "new role" "sp" (some ["Read"])).2).memory = [] ∧
    dictGet "a" ((Swarm.add_agent
        { agents := [("a", { name := "a", role := "r", memory := [JVal.str "m"] })] }
        "a" "new role" "sp" (some ["Read"])).1).agents =
      some { name := "a", role := "new role", system_prompt := "sp", memory := [],
             allowed_tools := some ["Read"] } := by
  exact add_agent_replaces
    { agents := [("a", { name := "a", role := "r", memory := [JVal.str "m"] })] }
    "a" "new role" "sp" (some ["Read"]) { name := "a", role := "r", memory := [JVal.str "m"] }
    (by decide)

/-- Witness for C8: two registered agents, two assignments, results tagged in
assignment order. -/
theorem dispatch_tags_witness :
    ((Swarm.dispatch wLoads (fun _ => wEnv) (fun _ => ("t1", "t2"))
        { agents := [("a", { name := "a", role := "r1" }), ("b", { name := "b", role := "r2" })] }
        [("a", "task1"), ("b", "task2")]).2).map InvokeRet.agent = [some "a", some "b"] ∧
    ((Swarm.dispatch wLoads (fun _ => wEnv) (fun _ => ("t1", "t2"))
        { agents := [("a", { name := "a", role := "r1" }), ("b", { name := "b", role := "r2" })] }
        [("a", "task1"), ("b", "task2")]).2).length = 2 := by
  have h := dispatch_tags wLoads (fun _ => wEnv) (fun _ => ("t1", "t2"))
    { agents := [("a", { name := "a", role := "r1" }), ("b", { name := "b", role := "r2" })] }
    [("a", "task1"), ("b", "task2")] (by decide)
  exact ⟨h.1.trans (by decide), h.2.trans (by decide)⟩

/-- swarm.py `Agent.to_dict` (lines 23-30). -/
def Agent.to_dict (a : Agent) : JVal :=
  JVal.dict [("name", JVal.str a.name), ("role", JVal.str a.role),
    ("system_prompt", JVal.str a.system_prompt), ("memory", JVal.list a.memory),
    ("allowed_tools", match a.allowed_tools with
      | some ts => JVal.list (ts.map JVal.str)
      | none => JVal.null)]

/-- Decode a JSON array of strings (the stored `allowed_tools` list). -/
def decodeStrList : List JVal → Option (List String)
  | [] => some []
  | JVal.str s :: rest => (decodeStrList rest).map (fun l => s :: l)
  | _ => none

/-- swarm.py `Agent.from_dict` (lines 32-34), `cls(**data)`: rebuild an agent
from its stored dict, decoded into the typed model (a dict whose fields do not
fit the dataclass yields `none`, modelling the raised TypeError). -/
def Agent.from_dict (v : JVal) : Option Agent :=
  match v with
  | JVal.dict d =>
    match dictGet "name" d, dictGet "role" d, dictGet "system_prompt" d,
          dictGet "memory" d, dictGet "allowed_tools" d with
    | some (JVal.str n), some (JVal.str r), some (JVal.str sp),
      some (JVal.list m), some tj =>
      match tj with
      | JVal.null => some { name := n, role := r, system_prompt := sp, memory := m,
                            allowed_tools := none }
      | JVal.list ts => (decodeStrList ts).map (fun l =>
          { name := n, role := r, system_prompt := sp, memory := m, allowed_tools := some l })
      | _ => none
    | _, _, _, _, _ => none
  | _ => none

/-- swarm.py `SwarmState.save` (lines 45-51): the JSON document written to the
state file -- agents mapped through `to_dict`, the shared context, and only
the last 100 history entries. -/
def SwarmState.save (st : SwarmState) : JVal :=
  JVal.dict [
    ("agents", JVal.dict (st.agents.map (fun p => (p.1, p.2.to_dict)))),
    ("shared_context", JVal.dict st.shared_context),
    ("history", JVal.list (lastN 100 st.history))]

/-- Decode the stored agents mapping through `Agent.from_dict`. -/
def decodeAgents : List (String × JVal) → Option (List (String × Agent))
  | [] => some []
  | (k, v) :: rest =>
    match Agent.from_dict v, decodeAgents rest with
    | some a, some r => some ((k, a) :: r)
    | _, _ => none

/-- swarm.py `SwarmState.load` (lines 53-65) applied to a parsed state file:
each stored key falls back to its empty default when absent; agents are
rebuilt through `Agent.from_dict`. -/
def SwarmState.load (data : JVal) : Option SwarmState :=
  match data with
  | JVal.dict d =>
    match (dictGet "agents" d).getD (JVal.dict []),
          (dictGet "shared_context" d).getD (JVal.dict []),
          (dictGet "history" d).getD (JVal.list []) with
    | JVal.dict ad, JVal.dict sc, JVal.list h =>
      (decodeAgents ad).map (fun ags =>
        { agents := ags, shared_context := sc, history := h })
    | _, _, _ => none
  | _ => none

theorem decodeStrList_map_str (ts : List String) :
    decodeStrList (ts.map JVal.str) = some ts := by
  induction ts with
  | nil => rfl
  | cons t rest ih => simp [decodeStrList, ih]

theorem from_dict_to_dict (a : Agent) : Agent.from_dict a.to_dict = some a := by
  obtain ⟨n, r, sp, m, tools⟩ := a
  cases tools with
  | none => simp [Agent.to_dict, Agent.from_dict, dictGet]
  | some ts => simp [Agent.to_dict, Agent.from_dict, dictGet, decodeStrList_map_str]

theorem decodeAgents_save (ags : List (String × Agent)) :
    decodeAgents (ags.map (fun p => (p.1, p.2.to_dict))) = some ags := by
  induction ags with
  | nil => rfl
  | cons p rest ih => simp [decodeAgents, from_dict_to_dict, ih]

/-- C4: loading a saved state reconstructs an equivalent state: the same agent
registry (names, roles, system prompts, memories, allowed tools), the same
shared context, and the history truncated on save to its most recent 100
entries (`lastN 100` is a suffix of the history of length
`min 100 (history length)`, so older entries are dropped). -/
theorem save_load_roundtrip (st : SwarmState) :
    SwarmState.load (SwarmState.save st) =
      some { agents := st.agents, shared_context := st.shared_context,
             history := lastN 100 st.history } ∧
    lastN 100 st.history <:+ st.history ∧
    (lastN 100 st.history).length = min 100 st.history.length := by
  refine ⟨?_, List.drop_suffix _ _, ?_⟩
  · simp [SwarmState.save, SwarmState.load, dictGet, decodeAgents_save]
  · simp only [lastN, List.length_drop]
    omega

/-- The per-task result dict of patterns.py `fan_out.run_task` (lines 33-35):
`{"index": idx, "task": task, **result}`. -/
structure FanResult where
  index : Nat
  task : String
  success : Bool
  result : Option JVal := none
  error : Option String := none
  returncode : Option Int := none
deriving Repr, DecidableEq

/-- Merge an `_invoke_claude` result dict into an index/task-tagged record. -/
def mkFanResult (idx : Nat) (task : String) (r : InvokeResult) : FanResult :=
  { index := idx, task := task, success := r.success, result := r.result,
    error := r.error, returncode := r.returncode }

/-- patterns.py `run_task` (lines 33-35): run one `run_prompt` call (whose
returned dict is exactly the `_invoke_claude` result; the history append of
`run_prompt` on the local throwaway swarm does not affect the return value)
and tag it with the input index and task. -/
def run_task (loads : String → Option JVal) (env : Nat → ProcOutcome)
    (idx : Nat) (task : String) : FanResult :=
  mkFanResult idx task (invoke_claude loads (env idx))

/-- The comparison used by `sorted(results, key=lambda x: x["index"])`. -/
def fanLe : FanResult → FanResult → Bool := fun a b => a.index ≤ b.index

/-- The gathered (pre-sort) result list: one tagged record per enumerated
task, as produced by `asyncio.gather` over `run_task(i, task)`. -/
def fanTagged (loads : String → Option JVal) (env : Nat → ProcOutcome)
    (tasks : List String) : List FanResult :=
  (tasks.enum).map (fun p => run_task loads env p.1 p.2)

/-- patterns.py `fan_out` (lines 12-41): gather the tagged per-task results
(`completion` models the scheduler's completion-order effect on the gathered
list) and re-sort them by their original input index. -/
def fan_out (loads : String → Option JVal) (env : Nat → ProcOutcome)
    (completion : List FanResult → List FanResult) (tasks : List String) : List FanResult :=
  (completion (fanTagged loads env tasks)).mergeSort fanLe

theorem fanLe_iff (a b : FanResult) : fanLe a b = true ↔ a.index ≤ b.index := by
  simp [fanLe]

theorem fanLe_trans (a b c : FanResult) (hab : fanLe a b = true) (hbc : fanLe b c = true) :
    fanLe a c = true := by
  rw [fanLe_iff] at hab hbc ⊢
  omega

theorem fanLe_total (a b : FanResult) : (fanLe a b || fanLe b a) = true := by
  rcases Nat.le_total a.index b.index with h | h
  · simp [(fanLe_iff a b).mpr h]
  · simp [(fanLe_iff b a).mpr h]

theorem fanTagged_length (loads : String → Option JVal) (env : Nat → ProcOutcome)
    (tasks : List String) : (fanTagged loads env tasks).length = tasks.length := by
  simp [fanTagged]

theorem fanTagged_map_index (loads : String → Option JVal) (env : Nat → ProcOutcome)
    (tasks : List String) :
    (fanTagged loads env tasks).map FanResult.index = List.range tasks.length := by
  apply List.ext_getElem
  · simp [fanTagged]
  · intro n h1 h2
    simp [fanTagged, List.getElem_enum, run_task, mkFanResult]

theorem sorted_perm_eq_fanTagged (loads : String → Option JVal) (env : Nat → ProcOutcome)
    (tasks : List String) (l : List FanResult)
    (hp : l.Perm (fanTagged loads env tasks))
    (hs : l.Pairwise (fun a b => a.index ≤ b.index)) :
    l = fanTagged loads env tasks := by
  have hlen : l.length = (fanTagged loads env tasks).length := hp.length_eq
  have hml : l.map FanResult.index = List.range tasks.length := by
    refine List.eq_of_perm_of_sorted
      ((hp.map FanResult.index).trans ?_) (List.pairwise_map.mpr hs) (List.sorted_le_range _)
    rw [fanTagged_map_index]
  apply List.ext_getElem hlen
  intro j h1 h2
  have hmem : l[j] ∈ fanTagged loads env tasks :=
    hp.mem_iff.mp (List.getElem_mem h1)
  obtain ⟨k, hk, hkeq⟩ := List.mem_iff_getElem.mp hmem
  have hlj : l[j].index = j := by
    have := congrArg (fun t => t[j]?) hml
    simp only [List.getElem?_map, List.getElem?_eq_getElem h1,
      List.getElem?_eq_getElem (by simpa [hp.length_eq, fanTagged_length] using h1 :
        j < (List.range tasks.length).length)] at this
    simpa using this
  have hfk : (fanTagged loads env tasks)[k].index = k := by
    have := congrArg (fun t => t[k]?) (fanTagged_map_index loads env tasks)
    simp only [List.getElem?_map, List.getElem?_eq_getElem hk,
      List.getElem?_eq_getElem (by simpa [fanTagged_length] using hk :
        k < (List.range tasks.length).length)] at this
    simpa using this
  have h3 : (fanTagged loads env tasks)[k].index = j := by rw [hkeq]; exact hlj
  have hkj : k = j := by omega
  subst hkj
  exact hkeq.symm

/-- C3: for every task list, with the gathered results arriving in any
completion order (any permutation), `fan_out` returns exactly the tagged list
in input order: length `n`, and the i-th element is the record of task `T[i]`
carrying original input index `i`. -/
theorem fan_out_restores_input_order (loads : String → Option JVal)
    (env : Nat → ProcOutcome) (completion : List FanResult → List FanResult)
    (tasks : List String) (hc : ∀ l : List FanResult, (completion l).Perm l) :
    fan_out loads env completion tasks = fanTagged loads env tasks ∧
    (fanTagged loads env tasks).length = tasks.length ∧
    ∀ i (h : i < tasks.length),
      (fanTagged loads env tasks).get ⟨i, by rw [fanTagged_length]; exact h⟩ =
        run_task loads env i (tasks.get ⟨i, h⟩) ∧
      (run_task loads env i (tasks.get ⟨i, h⟩)).index = i ∧
      (run_task loads env i (tasks.get ⟨i, h⟩)).task = tasks.get ⟨i, h⟩ := by
  refine ⟨?_, fanTagged_length loads env tasks, ?_⟩
  · apply sorted_perm_eq_fanTagged
    · exact (List.mergeSort_perm _ _).trans (hc _)
    · have hs := List.sorted_mergeSort fanLe_trans fanLe_total
        (completion (fanTagged loads env tasks))
      exact hs.imp (fun hab => (fanLe_iff _ _).mp hab)
  · intro i h
    refine ⟨?_, rfl, rfl⟩
    simp [fanTagged, List.get_eq_getElem, List.getElem_enum]

/-- Witness for C3: three tasks gathered in reversed completion order are
returned in input order with their tags. -/
theorem fan_out_restores_input_order_witness :
    fan_out wLoads (fun i => { returncode := 0, stdout := toString i, stderr := "" })
      List.reverse ["alpha", "beta", "gamma"] =
      fanTagged wLoads (fun i => { returncode := 0, stdout := toString i, stderr := "" })
        ["alpha", "beta", "gamma"] ∧
    (fanTagged wLoads (fun i => { returncode := 0, stdout := toString i, stderr := "" })
      ["alpha", "beta", "gamma"]).get ⟨1, by decide⟩ =
      { index := 1, task := "beta", success := true, result := some (JVal.str "1"),
        error := none, returncode := none } := by
  have h := fan_out_restores_input_order wLoads
    (fun i => { returncode := 0, stdout := toString i, stderr := "" })
    List.reverse ["alpha", "beta", "gamma"] (fun l => l.reverse_perm)
  refine ⟨h.1, ?_⟩
  exact ((h.2.2 1 (by decide)).1).trans (by decide)

/-- The per-stage result dict of patterns.py `pipeline` (line 73):
`{"stage": i, "prompt": stage, **result}` (the `prompt` key holds the raw
stage text, not the full issued prompt). -/
structure StageResult where
  stage : Nat
  prompt : String
  success : Bool
  result : Option JVal := none
  error : Option String := none
  returncode : Option Int := none
deriving Repr, DecidableEq

/-- Merge an `_invoke_claude` result dict into a stage record. -/
def mkStageResult (i : Nat) (stage : String) (r : InvokeResult) : StageResult :=
  { stage := i, prompt := stage, success := r.success, result := r.result,
    error := r.error, returncode := r.returncode }

/-- Junk default used only with `List.getD` under an in-bounds hypothesis. -/
def noStage : StageResult := { stage := 0, prompt := "", success := false }

/-- patterns.py `pipeline` line 68: the prompt of a non-first stage is the
stage text plus the serialized previous result under the label
(`prev.get("result", "")` defaults to the empty string when the previous
stage failed and has no `result` key). -/
def prevOutputPrompt (stage : String) (prev : StageResult) : String :=
  stage ++ "\n\n## Previous Stage Output\n" ++ JVal.dumps (prev.result.getD (JVal.str ""))

/-- patterns.py `pipeline` loop (lines 65-73), transliterated: `acc` is the
`results` list built so far, `i` the stage counter; each iteration issues one
prompt (consulting `results[-1]` from the second stage on) and appends the
pair of the issued prompt and the stage record. -/
def pipelineGo (loads : String → Option JVal) (env : Nat → ProcOutcome) (i : Nat)
    (acc : List (String × StageResult)) : List String → List (String × StageResult)
  | [] => acc
  | stage :: rest =>
    let prompt :=
      if i > 0 then
        match acc.getLast? with
        | some p => prevOutputPrompt stage p.2
        | none => stage
      else stage
    let r := mkStageResult i stage (invoke_claude loads (env i))
    pipelineGo loads env (i + 1) (acc ++ [(prompt, r)]) rest

/-- The full pipeline trace: for each stage, the issued prompt and the stage
record. -/
def pipelineRun (loads : String → Option JVal) (env : Nat → ProcOutcome)
    (stages : List String) : List (String × StageResult) :=
  pipelineGo loads env 0 [] stages

/-- The dict returned by patterns.py `pipeline` (lines 75-78). -/
structure PipelineRet where
  stages : List StageResult
  final : Option StageResult
deriving Repr, DecidableEq

/-- patterns.py `pipeline` (lines 44-78): the ordered stage results and the
final one (`None` on an empty stage list). -/
def pipeline (loads : String → Option JVal) (env : Nat → ProcOutcome)
    (stages : List String) : PipelineRet :=
  let results := (pipelineRun loads env stages).map Prod.snd
  { stages := results, final := results.getLast? }

/-- Accumulator-free form of the pipeline loop, carrying only the previous
stage record; used to reason about `pipelineGo`. -/
def pipelineAux (loads : String → Option JVal) (env : Nat → ProcOutcome) :
    Nat → Option StageResult → List String → List (String × StageResult)
  | _, _, [] => []
  | i, prev, stage :: rest =>
    let prompt :=
      if i > 0 then
        match prev with
        | some p => prevOutputPrompt stage p
        | none => stage
      else stage
    let r := mkStageResult i stage (invoke_claude loads (env i))
    (prompt, r) :: pipelineAux loads env (i + 1) (some r) rest

theorem pipelineGo_eq_aux (loads : String → Option JVal) (env : Nat → ProcOutcome) :
    ∀ (stages : List String) (i : Nat) (acc : List (String × StageResult)),
    pipelineGo loads env i acc stages =
      acc ++ pipelineAux loads env i ((acc.getLast?).map Prod.snd) stages := by
  intro stages
  induction stages with
  | nil => intro i acc; simp [pipelineGo, pipelineAux]
  | cons stage rest ih =>
    intro i acc
    cases hl : acc.getLast? with
    | none =>
      simp only [pipelineGo, pipelineAux, hl, Option.map_none']
      rw [ih, List.getLast?_concat]
      simp
    | some p =>
      simp only [pipelineGo, pipelineAux, hl, Option.map_some']
      rw [ih, List.getLast?_concat]
      simp

theorem pipelineAux_snd (loads : String → Option JVal) (env : Nat → ProcOutcome) :
    ∀ (stages : List String) (i : Nat) (prev : Option StageResult),
    (pipelineAux loads env i prev stages).map Prod.snd =
      (List.enumFrom i stages).map
        (fun p => mkStageResult p.1 p.2 (invoke_claude loads (env p.1))) := by
  intro stages
  induction stages with
  | nil => intro i prev; rfl
  | cons stage rest ih =>
    intro i prev
    simp only [pipelineAux, List.enumFrom, List.map_cons]
    rw [ih]

theorem pipelineAux_fst_succ (loads : String → Option JVal) (env : Nat → ProcOutcome) :
    ∀ (stages : List String) (i : Nat) (prev : Option StageResult) (j : Nat),
    j + 1 < stages.length →
    ((pipelineAux loads env i prev stages).map Prod.fst).getD (j + 1) "" =
      prevOutputPrompt (stages.getD (j + 1) "")
        (((pipelineAux loads env i prev stages).map Prod.snd).getD j noStage) := by
  intro stages
  induction stages with
  | nil => intro i prev j h; simp at h
  | cons stage rest ih =>
    intro i prev j h
    cases j with
    | zero =>
      cases rest with
      | nil => simp at h
      | cons s2 rest2 =>
        simp [pipelineAux, prevOutputPrompt]
    | succ j2 =>
      have h2 : j2 + 1 < rest.length := by simpa using h
      have := ih (i + 1) (some (mkStageResult i stage (invoke_claude loads (env i)))) j2 h2
      simpa [pipelineAux] using this

/-- C7: pipeline runs the stages strictly sequentially in input order -- the
trace lists, for each input position `i`, the record of stage `i` built from
the i-th invocation; the first issued prompt is the first stage text; every
later issued prompt is the stage text followed by the labeled serialization of
the immediately preceding stage's result; and the returned dict carries the
full ordered stage-result list plus the final stage's result. -/
theorem pipeline_spec (loads : String → Option JVal) (env : Nat → ProcOutcome)
    (stages : List String) :
    (pipelineRun loads env stages).map Prod.snd =
      stages.enum.map (fun p => mkStageResult p.1 p.2 (invoke_claude loads (env p.1))) ∧
    (pipeline loads env stages).stages = (pipelineRun loads env stages).map Prod.snd ∧
    (pipeline loads env stages).final = ((pipelineRun loads env stages).map Prod.snd).getLast? ∧
    (∀ s rest, stages = s :: rest →
      ((pipelineRun loads env stages).map Prod.fst).head? = some s) ∧
    (∀ j, j + 1 < stages.length →
      ((pipelineRun loads env stages).map Prod.fst).getD (j + 1) "" =
        prevOutputPrompt (stages.getD (j + 1) "")
          (((pipelineRun loads env stages).map Prod.snd).getD j noStage)) := by
  have hrun : pipelineRun loads env stages = pipelineAux loads env 0 none stages := by
    rw [pipelineRun, pipelineGo_eq_aux]
    rfl
  refine ⟨?_, rfl, rfl, ?_, ?_⟩
  · rw [hrun, pipelineAux_snd]
    rfl
  · intro s rest hse
    subst hse
    rw [hrun]
    simp [pipelineAux]
  · intro j hj
    rw [hrun]
    exact pipelineAux_fst_succ loads env stages 0 none j hj

/-- Witness for C7: a concrete two-stage pipeline whose second issued prompt
embeds the serialized first-stage result under the label. -/
theorem pipeline_spec_witness :
    ((pipelineRun wLoads (fun i => { returncode := 0, stdout := toString i, stderr := "" })
        ["draft", "refine"]).map Prod.fst).getD 1 "" =
      "refine\n\n## Previous Stage Output\n\"0\"" ∧
    (pipeline wLoads (fun i => { returncode := 0, stdout := toString i, stderr := "" })
        ["draft", "refine"]).stages =
      [{ stage := 0, prompt := "draft", success := true, result := some (JVal.str "0"),
         error := none, returncode := none },
       { stage := 1, prompt := "refine", success := true, result := some (JVal.str "1"),
         error := none, returncode := none }] := by
  have h := pipeline_spec wLoads
    (fun i => { returncode := 0, stdout := toString i, stderr := "" }) ["draft", "refine"]
  constructor
  · exact (h.2.2.2.2 0 (by decide)).trans (by decide)
  · exact (h.2.1.trans h.1).trans (by decide)

/-- patterns.py `hierarchical` lines 115-117: extract the raw plan payload --
the `result` value of the plan dict (defaulting to the empty dict when the
call failed), unwrapped once more through its own `result` key (defaulting to
the string `"[]"`) when it is itself a dict. -/
def plan_raw (plan : InvokeResult) : JVal :=
  let raw := plan.result.getD (JVal.dict [])
  match raw with
  | JVal.dict d => (dictGet "result" d).getD (JVal.str "[]")
  | _ => raw

/-- patterns.py `hierarchical` line 118: `json.loads(raw) if isinstance(raw,
str) else raw`; `loads` returning `none` models the JSONDecodeError caught by
the surrounding try block. -/
def plan_parsed (loads : String → Option JVal) (plan : InvokeResult) : Option JVal :=
  match plan_raw plan with
  | JVal.str s => loads s
  | v => some v

/-- patterns.py `hierarchical` lines 114-122: the derived subtasks -- the
parsed list when parsing produced a list, otherwise the fallback `[goal]`. -/
def parse_subtasks (loads : String → Option JVal) (plan : InvokeResult)
    (goal : String) : List JVal :=
  match plan_parsed loads plan with
  | some (JVal.list l) => l
  | _ => [JVal.str goal]

/-- The task text a subtask value contributes to the fan-out phase (Python
passes the parsed values straight through; only string subtasks are exercised
by the claims, non-strings are rendered via their serialization). -/
def subtask_text : JVal → String
  | JVal.str s => s
  | v => JVal.dumps v

/-- The dict returned by patterns.py `hierarchical` (lines 140-145). -/
structure HierRet where
  goal : String
  subtasks : List JVal
  worker_results : List FanResult
  synthesis : InvokeResult
deriving Repr, DecidableEq

/-- patterns.py `hierarchical` (lines 81-145): plan, defensively parse the
subtasks, fan the subtasks out, synthesize.  The three process outcomes and
the fan-out completion order are environment parameters. -/
def hierarchical (loads : String → Option JVal) (env_plan : ProcOutcome)
    (env_work : Nat → ProcOutcome) (completion : List FanResult → List FanResult)
    (env_synth : ProcOutcome) (goal : String) : HierRet :=
  let plan_result := invoke_claude loads env_plan
  let subtasks := parse_subtasks loads plan_result goal
  let worker_results := fan_out loads env_work completion (subtasks.map subtask_text)
  let synthesis := invoke_claude loads env_synth
  { goal := goal, subtasks := subtasks, worker_results := worker_results,
    synthesis := synthesis }

/-- C6: whenever the planner response's payload does not parse as structured
data, or parses to something other than a list, the derived subtasks fall back
to the original goal alone, and the worker fan-out runs exactly the list
`[goal]`. -/
theorem hierarchical_fallback (loads : String → Option JVal) (env_plan : ProcOutcome)
    (env_work : Nat → ProcOutcome) (completion : List FanResult → List FanResult)
    (env_synth : ProcOutcome) (goal : String)
    (h : ∀ l : List JVal, plan_parsed loads (invoke_claude loads env_plan) ≠
      some (JVal.list l)) :
    (hierarchical loads env_plan env_work completion env_synth goal).subtasks =
      [JVal.str goal] ∧
    (hierarchical loads env_plan env_work completion env_synth goal).worker_results =
      fan_out loads env_work completion [goal] := by
  have hsub : parse_subtasks loads (invoke_claude loads env_plan) goal = [JVal.str goal] := by
    unfold parse_subtasks
    cases hp : plan_parsed loads (invoke_claude loads env_plan) with
    | none => rfl
    | some v =>
      cases v with
      | null => rfl
      | bool b => rfl
      | num n => rfl
      | str s => rfl
      | list l => exact absurd hp (h l)
      | dict d => rfl
  constructor
  · simp [hierarchical, hsub]
  · simp [hierarchical, hsub, subtask_text]

/-- Witness for C6: a planner that prints non-JSON text falls back to the goal
as sole subtask, and the worker phase runs exactly that one task. -/
theorem hierarchical_fallback_witness :
    (hierarchical wLoads { returncode := 0, stdout := "not json", stderr := "" }
      (fun _ => { returncode := 0, stdout := "ok", stderr := "" }) id
      { returncode := 0, stdout := "done", stderr := "" } "refactor the app").subtasks =
      [JVal.str "refactor the app"] ∧
    (hierarchical wLoads { returncode := 0, stdout := "not json", stderr := "" }
      (fun _ => { returncode := 0, stdout := "ok", stderr := "" }) id
      { returncode := 0, stdout := "done", stderr := "" } "refactor the app").worker_results =
      [{ index := 0, task := "refactor the app", success := true,
         result := some (JVal.str "ok"), error := none, returncode := none }] := by
  have h := hierarchical_fallback wLoads { returncode := 0, stdout := "not json", stderr := "" }
    (fun _ => { returncode := 0, stdout := "ok", stderr := "" }) id
    { returncode := 0, stdout := "done", stderr := "" } "refactor the app"
    (by
      intro l hl
      rw [show plan_parsed wLoads
        (invoke_claude wLoads { returncode := 0, stdout := "not json", stderr := "" }) =
        none from rfl] at hl
      exact Option.noConfusion hl)
  have hf : fan_out wLoads (fun _ => { returncode := 0, stdout := "ok", stderr := "" }) id
      ["refactor the app"] =
      fanTagged wLoads (fun _ => { returncode := 0, stdout := "ok", stderr := "" })
        ["refactor the app"] := by
    apply sorted_perm_eq_fanTagged
    · exact List.mergeSort_perm _ _
    · exact (List.sorted_mergeSort fanLe_trans fanLe_total _).imp
        (fun hab => (fanLe_iff _ _).mp hab)
  exact ⟨h.1, h.2.trans (hf.trans (by decide))⟩
